import Mathlib

/- Verification of the keyed session-coordination layer of the AItinerary
   worker against its natural-language specification.  The TypeScript
   sources are shallowly embedded: the notification fan-out actor and the
   collaborative itinerary actor (src/server/notification-manager.ts) and
   the conversation chat actor (the Chat durable object) become pure Lean
   functions over explicit state, with durable storage passed as explicit
   values and database calls modelled by their results. -/

namespace Spec2Proof

/- Section 1: NotificationManager (src/server/notification-manager.ts,
   class NotificationManager).  An SSE connection is a registered writer
   handle; the broken flag records whether a write to this writer fails. -/

structure SSEConn where
  connId : Nat
  userId : String
  broken : Bool
deriving DecidableEq, Repr

/-- Registry of writer handles per user id, modelling the connections map. -/
def Registry : Type := String → List SSEConn

structure NotifyResult where
  registry : Registry
  issued : List SSEConn
  delivered : List SSEConn
  sent : Nat

/-- Model of the POST /notify branch of NotificationManager.fetch.  A write
is issued to every connection registered for the target user; a failing
write splices that connection out of the stored array.  In the source the
response reads the length of that same array object after all writes have
settled (the splices mutate it in place), so the sent field counts the
surviving connections. -/
def notify (reg : Registry) (targetUserId : String) : NotifyResult :=
  let conns := reg targetUserId
  let surviving := conns.filter (fun c => !c.broken)
  { registry := fun u => if u = targetUserId then surviving else reg u
    issued := conns
    delivered := surviving
    sent := surviving.length }

/-- C4: when the write to exactly one registered writer for the user fails,
only that writer is removed from the registry, every other registered
writer for the user still receives the framed event, and the returned count
equals the number of successful deliveries. -/
theorem notify_single_failure_isolated (reg : Registry) (u : String)
    (pre post : List SSEConn) (b : SSEConn)
    (hsplit : reg u = pre ++ b :: post) (hb : b.broken = true)
    (hpre : ∀ c ∈ pre, c.broken = false)
    (hpost : ∀ c ∈ post, c.broken = false) :
    (notify reg u).registry u = pre ++ post ∧
    (notify reg u).delivered = pre ++ post ∧
    (notify reg u).sent = (pre ++ post).length := by
  have hfil : (reg u).filter (fun c => !c.broken) = pre ++ post := by
    rw [hsplit, List.filter_append, List.filter_cons]
    have h1 : pre.filter (fun c => !c.broken) = pre :=
      List.filter_eq_self.mpr (fun c hc => by simp [hpre c hc])
    have h2 : post.filter (fun c => !c.broken) = post :=
      List.filter_eq_self.mpr (fun c hc => by simp [hpost c hc])
    simp [hb, h1, h2]
  refine ⟨?_, ?_, ?_⟩
  · simp [notify, hfil]
  · simp [notify, hfil]
  · simp [notify, hfil]

def connA : SSEConn := ⟨1, "alice", false⟩
def connB : SSEConn := ⟨2, "alice", true⟩
def connC : SSEConn := ⟨3, "alice", false⟩

def regW : Registry := fun u => if u = "alice" then [connA, connB, connC] else []

/-- Witness for C4 at a concrete registry holding three writers for alice,
the middle one failing. -/
theorem notify_single_failure_isolated_witness :
    (notify regW "alice").registry "alice" = [connA] ++ [connC] ∧
    (notify regW "alice").delivered = [connA] ++ [connC] ∧
    (notify regW "alice").sent = ([connA] ++ [connC]).length :=
  notify_single_failure_isolated regW "alice" [connA] [connC] connB
    (by decide) (by decide) (by decide) (by decide)

def connBob : SSEConn := ⟨7, "bob", false⟩

def regW2 : Registry :=
  fun u => if u = "alice" then [connA] else if u = "bob" then [connBob] else []

/-- C7: notify for a target user issues the framed event to every writer
registered under that user and to no writer registered under a different
user, and the registry of every other user is unchanged by the call. -/
theorem notify_fanout_isolation (reg : Registry) (u v : String) (hne : v ≠ u)
    (hu : ∀ c ∈ reg u, c.userId = u) (hv : ∀ c ∈ reg v, c.userId = v) :
    (notify reg u).issued = reg u ∧
    (notify reg u).registry v = reg v ∧
    ∀ c ∈ reg v, c ∉ (notify reg u).issued := by
  refine ⟨rfl, ?_, ?_⟩
  · simp [notify, if_neg hne]
  · intro c hc hmem
    have h1 : c.userId = v := hv c hc
    have h2 : c.userId = u := hu c hmem
    exact hne (h1.symm.trans h2)

/-- Witness for C7 with alice holding one writer and bob another. -/
theorem notify_fanout_isolation_witness :
    (notify regW2 "alice").issued = regW2 "alice" ∧
    (notify regW2 "alice").registry "bob" = regW2 "bob" ∧
    ∀ c ∈ regW2 "bob", c ∉ (notify regW2 "alice").issued :=
  notify_fanout_isolation regW2 "alice" "bob" (by decide) (by decide) (by decide)

/- Section 2: CollaborativeItinerary (src/server/notification-manager.ts,
   class CollaborativeItinerary).  The itinerary document is an ordered
   list of days, each an ordered list of activities.  Fields the actor
   never inspects are collapsed into an opaque data string. -/

inductive Vote where
  | up
  | down
  | neutral
deriving DecidableEq, Repr

structure VoteTotals where
  up : Nat
  down : Nat
  neutral : Nat
deriving DecidableEq, Repr

structure Activity where
  id : String
  data : String
  votes : List (String × Vote)
deriving DecidableEq, Repr

structure Day where
  dayNumber : Int
  data : String
  activities : List Activity
deriving DecidableEq, Repr

structure ItineraryDoc where
  id : String
  data : String
  days : List Day
deriving DecidableEq, Repr

/-- Shallow-merge patch for one activity: a present field overrides the
stored one, as the object spread in updateActivity does. -/
structure ActivityPatch where
  id : Option String
  data : Option String
  votes : Option (List (String × Vote))
deriving DecidableEq, Repr

def applyActivityPatch (a : Activity) (p : ActivityPatch) : Activity :=
  { id := p.id.getD a.id
    data := p.data.getD a.data
    votes := p.votes.getD a.votes }

/-- Shallow-merge patch for the top-level document, as the object spread in
updateItinerary does. -/
structure DocPatch where
  id : Option String
  data : Option String
  days : Option (List Day)
deriving DecidableEq, Repr

inductive EditActionData where
  | activityAdd (dayNumber : Int) (activity : Activity)
  | activityUpdate (activityId : String) (updates : ActivityPatch)
  | activityDelete (activityId : String)
  | itineraryUpdate (patch : DocPatch)
deriving DecidableEq, Repr

structure EditAction where
  userId : String
  timestamp : Nat
  data : EditActionData
deriving DecidableEq, Repr

/-- Helper for addActivity: the source finds the first day whose dayNumber
matches and pushes the activity onto its list, touching nothing else. -/
def addToMatchingDay : List Day → Int → Activity → List Day
  | [], _, _ => []
  | d :: ds, n, a =>
    if d.dayNumber == n then { d with activities := d.activities ++ [a] } :: ds
    else d :: addToMatchingDay ds n a

def addActivity (doc : ItineraryDoc) (dayNumber : Int) (activity : Activity) :
    ItineraryDoc :=
  { doc with days := addToMatchingDay doc.days dayNumber activity }

/-- Helper for updateActivity: within one day, replace the first activity
whose id matches by its patched version; none signals no match. -/
def patchFirstActivity : List Activity → String → ActivityPatch →
    Option (List Activity)
  | [], _, _ => none
  | a :: as, aid, p =>
    if a.id == aid then some (applyActivityPatch a p :: as)
    else
      match patchFirstActivity as aid p with
      | some as2 => some (a :: as2)
      | none => none

/-- Helper for updateActivity: scan the days in stored order and patch the
first day holding a matching activity, then stop. -/
def updateInDays : List Day → String → ActivityPatch → List Day
  | [], _, _ => []
  | d :: ds, aid, p =>
    match patchFirstActivity d.activities aid p with
    | some as2 => { d with activities := as2 } :: ds
    | none => d :: updateInDays ds aid p

def updateActivity (doc : ItineraryDoc) (activityId : String)
    (updates : ActivityPatch) : ItineraryDoc :=
  { doc with days := updateInDays doc.days activityId updates }

/-- Helper for deleteActivity: within one day, splice out the first
activity whose id matches; none signals no match. -/
def removeFirstActivity : List Activity → String → Option (List Activity)
  | [], _ => none
  | a :: as, aid =>
    if a.id == aid then some as
    else
      match removeFirstActivity as aid with
      | some as2 => some (a :: as2)
      | none => none

/-- Helper for deleteActivity: scan the days in stored order and splice out
of the first day holding a matching activity, then stop. -/
def deleteInDays : List Day → String → List Day
  | [], _ => []
  | d :: ds, aid =>
    match removeFirstActivity d.activities aid with
    | some as2 => { d with activities := as2 } :: ds
    | none => d :: deleteInDays ds aid

def deleteActivity (doc : ItineraryDoc) (activityId : String) : ItineraryDoc :=
  { doc with days := deleteInDays doc.days activityId }

def updateItinerary (doc : ItineraryDoc) (patch : DocPatch) : ItineraryDoc :=
  { id := patch.id.getD doc.id
    data := patch.data.getD doc.data
    days := patch.days.getD doc.days }

/-- Dispatch of handleEdit on the action type.  The source guards every
branch on a null document (and null days) and leaves the state untouched
in that case. -/
def applyActionData (doc : ItineraryDoc) : EditActionData → ItineraryDoc
  | .activityAdd n a => addActivity doc n a
  | .activityUpdate aid p => updateActivity doc aid p
  | .activityDelete aid => deleteActivity doc aid
  | .itineraryUpdate p => updateItinerary doc p

def applyEditData (od : Option ItineraryDoc) (d : EditActionData) :
    Option ItineraryDoc :=
  match od with
  | none => none
  | some doc => some (applyActionData doc d)

/-- Sequential fold of edit actions over a document, as successive
handleEdit calls perform it. -/
def applyActions (acts : List EditActionData) (od : Option ItineraryDoc) :
    Option ItineraryDoc :=
  acts.foldl applyEditData od

structure CollabUser where
  id : String
  name : String
  email : String
  color : String
deriving DecidableEq, Repr

/-- Identity fields the actor attaches to edit and chat broadcasts. -/
structure PublicUser where
  id : String
  name : String
  color : String
deriving DecidableEq, Repr

def toPublic (u : CollabUser) : PublicUser := ⟨u.id, u.name, u.color⟩

inductive OutMsg where
  | edit (action : EditAction) (user : PublicUser)
  | voteUpdate (activityId : String) (userId : String) (vote : Vote)
      (totalVotes : VoteTotals)
deriving DecidableEq, Repr

structure WsSession where
  wsId : Nat
  user : CollabUser
  isOpen : Bool
deriving DecidableEq, Repr

/-- Broadcast sends the message to every open socket other than the
excluded one; with no exclusion every open socket, the sender included,
receives it. -/
def broadcast (sessions : List WsSession) (m : OutMsg) (excl : Option Nat) :
    List (Nat × OutMsg) :=
  (sessions.filter (fun w => w.isOpen && excl != some w.wsId)).map
    (fun w => (w.wsId, m))

structure CollabState where
  itineraryData : Option ItineraryDoc
  editHistory : List EditAction
  sessions : List WsSession
  durable : Option ItineraryDoc
deriving DecidableEq, Repr

/-- Bounded history append: push, then keep only the last 100 entries. -/
def boundedAppend (h : List EditAction) (a : EditAction) : List EditAction :=
  let h1 := h ++ [a]
  if h1.length > 100 then h1.drop (h1.length - 100) else h1

/-- Step kinds of handleEdit, used to record the order in which the source
statement list performs its effects. -/
inductive EditStep where
  | stampAction
  | applyToDoc
  | persistDoc
  | appendHistory
  | broadcastEdit
deriving DecidableEq, Repr

/-- Order of the five steps as the source of handleEdit executes them:
stamp the action, apply it to the in-memory document, put the whole
document to durable storage, push onto the bounded history, broadcast. -/
def handleEditSteps : List EditStep :=
  [EditStep.stampAction, EditStep.applyToDoc, EditStep.persistDoc,
   EditStep.appendHistory, EditStep.broadcastEdit]

/-- Model of CollaborativeItinerary.handleEdit: stamp the action with the
sender id and the current time, apply it to the in-memory document, write
the whole document to durable storage, append to the bounded history, and
broadcast the edit with the actor identity to every open connection. -/
def handleEdit (s : CollabState) (u : CollabUser) (a : EditAction)
    (now : Nat) : CollabState × List (Nat × OutMsg) :=
  let stamped : EditAction := { a with userId := u.id, timestamp := now }
  let newData := applyEditData s.itineraryData stamped.data
  let hist := boundedAppend s.editHistory stamped
  let out := broadcast s.sessions (OutMsg.edit stamped (toPublic u)) none
  ({ s with itineraryData := newData, durable := newData,
            editHistory := hist }, out)

/-- Vote assignment on the votes object: an existing key is overwritten in
place, a new key is appended. -/
def setVote : List (String × Vote) → String → Vote → List (String × Vote)
  | [], uid, v => [(uid, v)]
  | (k, w) :: rest, uid, v =>
    if k = uid then (k, v) :: rest else (k, w) :: setVote rest uid v

def calculateVotes (votes : List (String × Vote)) : VoteTotals :=
  votes.foldl
    (fun acc kv =>
      match kv.2 with
      | .up => { acc with up := acc.up + 1 }
      | .down => { acc with down := acc.down + 1 }
      | .neutral => { acc with neutral := acc.neutral + 1 })
    ⟨0, 0, 0⟩

/-- Helper for handleVote: within one day, set the vote on the first
activity whose id matches and return the recomputed totals. -/
def voteFirstActivity : List Activity → String → String → Vote →
    Option (List Activity × VoteTotals)
  | [], _, _, _ => none
  | a :: as, aid, uid, v =>
    if a.id == aid then
      some ({ a with votes := setVote a.votes uid v } :: as,
        calculateVotes (setVote a.votes uid v))
    else
      match voteFirstActivity as aid uid v with
      | some (as2, t) => some (a :: as2, t)
      | none => none

/-- Helper for handleVote: scan the days in stored order, record the vote
in the first day holding a matching activity, then stop. -/
def voteInDays : List Day → String → String → Vote →
    Option (List Day × VoteTotals)
  | [], _, _, _ => none
  | d :: ds, aid, uid, v =>
    match voteFirstActivity d.activities aid uid v with
    | some (as2, t) => some ({ d with activities := as2 } :: ds, t)
    | none =>
      match voteInDays ds aid uid v with
      | some (ds2, t) => some (d :: ds2, t)
      | none => none

/-- Model of CollaborativeItinerary.handleVote: mutate the in-memory
document only and broadcast the recomputed totals; no durable write is
performed. -/
def handleVote (s : CollabState) (u : CollabUser) (activityId : String)
    (v : Vote) : CollabState × List (Nat × OutMsg) :=
  match s.itineraryData with
  | none => (s, [])
  | some doc =>
    match voteInDays doc.days activityId u.id v with
    | none => (s, [])
    | some (days2, totals) =>
      ({ s with itineraryData := some { doc with days := days2 } },
        broadcast s.sessions
          (OutMsg.voteUpdate activityId u.id v totals) none)

/-- C5 counterexample: the claim orders the steps as stamp, apply, append
to history, persist, broadcast, but the source persists the document
before appending to the bounded history. -/
theorem handleEdit_claimed_order_false :
    handleEditSteps ≠
      [EditStep.stampAction, EditStep.applyToDoc, EditStep.appendHistory,
       EditStep.persistDoc, EditStep.broadcastEdit] := by decide

/-- C5 amended: processing an edit stamps the action with the sender id
and current timestamp, applies it to the in-memory document, persists the
entire document, appends to the bounded history, and only after the
persistence write broadcasts the edit with the action and actor identity
to all open connections on the key, the sender included. -/
theorem handleEdit_spec (s : CollabState) (u : CollabUser) (a : EditAction)
    (now : Nat) :
    (handleEdit s u a now).1.itineraryData
      = applyEditData s.itineraryData a.data ∧
    (handleEdit s u a now).1.durable
      = (handleEdit s u a now).1.itineraryData ∧
    (handleEdit s u a now).1.editHistory
      = boundedAppend s.editHistory { a with userId := u.id, timestamp := now } ∧
    (handleEdit s u a now).1.sessions = s.sessions ∧
    (handleEdit s u a now).2
      = (s.sessions.filter (fun w => w.isOpen)).map
          (fun w => (w.wsId,
            OutMsg.edit { a with userId := u.id, timestamp := now }
              (toPublic u))) ∧
    handleEditSteps
      = [EditStep.stampAction, EditStep.applyToDoc, EditStep.persistDoc,
         EditStep.appendHistory, EditStep.broadcastEdit] := by
  refine ⟨rfl, rfl, rfl, rfl, ?_, rfl⟩
  have hpred : ∀ w : WsSession, (w.isOpen && (none != some w.wsId)) = w.isOpen := by
    intro w; simp [bne]
  simp only [handleEdit, broadcast]
  rw [List.filter_congr (fun w _ => hpred w)]

/-- C8: the edit-application fold is deterministic; equal starting
documents yield identical final documents under the same action list. -/
theorem applyActions_deterministic (acts : List EditActionData)
    (d1 d2 : Option ItineraryDoc) (h : d1 = d2) :
    applyActions acts d1 = applyActions acts d2 := by rw [h]

def emptyDocW : ItineraryDoc := ⟨"trip1", "", []⟩

def actW : Activity := ⟨"act1", "museum", []⟩

/-- Witness for C8 replaying one activity-add on a fresh empty document. -/
theorem applyActions_deterministic_witness :
    (some emptyDocW : Option ItineraryDoc) = some emptyDocW ∧
    applyActions [EditActionData.activityAdd 1 actW] (some emptyDocW)
      = applyActions [EditActionData.activityAdd 1 actW] (some emptyDocW) :=
  ⟨rfl, applyActions_deterministic [EditActionData.activityAdd 1 actW]
    (some emptyDocW) (some emptyDocW) rfl⟩

lemma addToMatchingDay_no_match (n : Int) (a : Activity) :
    ∀ days : List Day, (∀ d ∈ days, d.dayNumber ≠ n) →
      addToMatchingDay days n a = days := by
  intro days
  induction days with
  | nil => intro _; rfl
  | cons d ds ih =>
    intro h
    have hd : d.dayNumber ≠ n := h d (List.mem_cons_self d ds)
    have hds : ∀ x ∈ ds, x.dayNumber ≠ n :=
      fun x hx => h x (List.mem_cons_of_mem d hx)
    simp [addToMatchingDay, hd, ih hds]

lemma addToMatchingDay_first (n : Int) (a : Activity) :
    ∀ (pre : List Day) (day : Day) (post : List Day),
      day.dayNumber = n → (∀ d ∈ pre, d.dayNumber ≠ n) →
      addToMatchingDay (pre ++ day :: post) n a
        = pre ++ { day with activities := day.activities ++ [a] } :: post := by
  intro pre
  induction pre with
  | nil =>
    intro day post hday _
    simp [addToMatchingDay, hday]
  | cons d ds ih =>
    intro day post hday h
    have hd : d.dayNumber ≠ n := h d (List.mem_cons_self d ds)
    have hds : ∀ x ∈ ds, x.dayNumber ≠ n :=
      fun x hx => h x (List.mem_cons_of_mem d hx)
    simp [addToMatchingDay, hd, ih day post hday hds]

/-- C9: an activity-add appends the activity to the first day whose
dayNumber matches, scanning in stored order; with no matching day the
document is unchanged and no failure is produced. -/
theorem addActivity_first_match (n : Int) (a : Activity)
    (doc : ItineraryDoc) :
    ((∀ d ∈ doc.days, d.dayNumber ≠ n) → addActivity doc n a = doc) ∧
    (∀ (pre : List Day) (day : Day) (post : List Day),
      doc.days = pre ++ day :: post → day.dayNumber = n →
      (∀ d ∈ pre, d.dayNumber ≠ n) →
      addActivity doc n a =
        { doc with days :=
            pre ++ { day with activities := day.activities ++ [a] } :: post }) := by
  constructor
  · intro h
    show { doc with days := addToMatchingDay doc.days n a } = doc
    rw [addToMatchingDay_no_match n a doc.days h]
  · intro pre day post hsplit hday hpre
    show { doc with days := addToMatchingDay doc.days n a } = _
    rw [hsplit, addToMatchingDay_first n a pre day post hday hpre]

def dayW1 : Day := ⟨1, "", []⟩

def dayW2 : Day := ⟨2, "", []⟩

def docW : ItineraryDoc := ⟨"trip1", "", [dayW1, dayW2]⟩

/-- Witness for C9 adding to day 2 of a two-day document. -/
theorem addActivity_first_match_witness :
    docW.days = [dayW1] ++ dayW2 :: [] ∧
    addActivity docW 2 actW =
      { docW with days :=
          [dayW1] ++ { dayW2 with activities := dayW2.activities ++ [actW] } :: [] } :=
  ⟨rfl, (addActivity_first_match 2 actW docW).2 [dayW1] dayW2 [] rfl rfl
    (by decide)⟩

lemma handleVote_frame (st : CollabState) (u : CollabUser) (aid : String)
    (v : Vote) :
    (handleVote st u aid v).1.durable = st.durable ∧
    (handleVote st u aid v).1.editHistory = st.editHistory ∧
    (handleVote st u aid v).1.sessions = st.sessions := by
  rcases h : st.itineraryData with _ | doc
  · simp [handleVote, h]
  · rcases h2 : voteInDays doc.days aid u.id v with _ | ⟨ds2, t⟩
    · simp [handleVote, h, h2]
    · simp [handleVote, h, h2]

/-- Fold of handleVote over a sequence of votes, each a sender with an
activity id and a vote value. -/
def applyVotes (s : CollabState)
    (votes : List (CollabUser × String × Vote)) : CollabState :=
  votes.foldl (fun st x => (handleVote st x.1 x.2.1 x.2.2).1) s

lemma applyVotes_frame (votes : List (CollabUser × String × Vote)) :
    ∀ s : CollabState,
      (applyVotes s votes).durable = s.durable ∧
      (applyVotes s votes).editHistory = s.editHistory ∧
      (applyVotes s votes).sessions = s.sessions := by
  induction votes with
  | nil => intro s; exact ⟨rfl, rfl, rfl⟩
  | cons x xs ih =>
    intro s
    have hstep := handleVote_frame s x.1 x.2.1 x.2.2
    have hrest := ih ((handleVote s x.1 x.2.1 x.2.2).1)
    exact ⟨hrest.1.trans hstep.1, hrest.2.1.trans hstep.2.1,
      hrest.2.2.trans hstep.2.2⟩

/-- C10: a vote performs no durable write; any sequence of votes with no
interleaved edit leaves the durable copy, the edit history and the
session registry unchanged, and vote data reaches durable storage only
when a later edit persists the whole in-memory document. -/
theorem handleVote_no_durable_write (s : CollabState)
    (votes : List (CollabUser × String × Vote)) (u : CollabUser)
    (a : EditAction) (now : Nat) :
    (applyVotes s votes).durable = s.durable ∧
    (applyVotes s votes).editHistory = s.editHistory ∧
    (applyVotes s votes).sessions = s.sessions ∧
    (handleEdit s u a now).1.durable
      = (handleEdit s u a now).1.itineraryData :=
  ⟨(applyVotes_frame votes s).1, (applyVotes_frame votes s).2.1,
    (applyVotes_frame votes s).2.2, rfl⟩

/- Section 3: the Chat durable object (ConversationSession).  The
   chat_messages table is modelled per conversation id: the stored rows of
   one conversation, in created_at order, with the serialized message as
   the row content. -/

structure ChatMsg where
  role : String
  body : String
deriving DecidableEq, Repr

/-- Durable chat_messages table, grouped by conversation id in creation
order. -/
def ChatDB : Type := String → List ChatMsg

/-- Model of DELETE FROM chat_messages WHERE conversation_id = cid. -/
def deleteConversationMessages (db : ChatDB) (cid : String) : ChatDB :=
  fun c => if c = cid then [] else db c

/-- Model of one INSERT INTO chat_messages row with the next creation
timestamp, hence appended at the end of the conversation. -/
def insertConversationMessage (db : ChatDB) (cid : String) (m : ChatMsg) :
    ChatDB :=
  fun c => if c = cid then db c ++ [m] else db c

/-- Persistence step of wrappedOnFinish: delete every stored row for the
bound conversation id, then insert each in-memory message in order. -/
def saveTurnMessages (db : ChatDB) (cid : String) (msgs : List ChatMsg) :
    ChatDB :=
  msgs.foldl (fun d m => insertConversationMessage d cid m)
    (deleteConversationMessages db cid)

lemma insertFold_apply (cid : String) (msgs : List ChatMsg) :
    ∀ (db0 : ChatDB) (c : String),
      (msgs.foldl (fun d m => insertConversationMessage d cid m) db0) c
        = if c = cid then db0 cid ++ msgs else db0 c := by
  induction msgs with
  | nil =>
    intro db0 c
    by_cases h : c = cid <;> simp [h]
  | cons m ms ih =>
    intro db0 c
    rw [List.foldl_cons, ih (insertConversationMessage db0 cid m) c]
    by_cases h : c = cid <;> simp [insertConversationMessage, h]

/-- C1: after a completed chat turn, the persistence step rewrites the
durable rows of the bound conversation id to exactly the in-memory log in
its order, leaving every other conversation untouched. -/
theorem saveTurnMessages_replaces (db : ChatDB) (cid : String)
    (msgs : List ChatMsg) :
    saveTurnMessages db cid msgs = fun c => if c = cid then msgs else db c := by
  funext c
  unfold saveTurnMessages
  rw [insertFold_apply]
  by_cases h : c = cid <;> simp [deleteConversationMessages, h]

/- The in-memory and durably stored actor state of the Chat object:
   the message log, and the storage keys conversationId, userToken and
   userId. -/

structure ChatState where
  messages : List ChatMsg
  storedConversationId : Option String
  userToken : Option String
  storedUserId : Option String
deriving DecidableEq, Repr

structure SessionRow where
  token : String
  userId : String
  expiresAt : Nat
  createdAt : Nat
deriving DecidableEq, Repr

structure UserRow where
  id : String
  email : String
  name : String
deriving DecidableEq, Repr

structure ConvRow where
  id : String
  userId : String
  title : String
deriving DecidableEq, Repr

/-- Relational tables consulted by the Chat object: session, user and
chat_conversations. -/
structure AuthDb where
  sessions : List SessionRow
  users : List UserRow
  conversations : List ConvRow
deriving DecidableEq, Repr

/-- Model of validateToken (src/server/middleware/auth.middleware.ts): the
first unexpired session row matching the token, joined with its user
row. -/
def validateToken (db : AuthDb) (token : String) (now : Nat) :
    Option UserRow :=
  match db.sessions.find?
      (fun s => s.token == token && decide (now < s.expiresAt)) with
  | none => none
  | some s => db.users.find? (fun u => u.id == s.userId)

/-- Conversation binding block of Chat.onRequest: when the request carries
a conversation id, reload the in-memory log from the durable store exactly
when the needsReload disjunction holds, then persist the requested id as
the bound one.  A failed select is caught: the log stays cleared and the
request continues. -/
def bindStage (s : ChatState) (conversationId : Option String)
    (selectResult : Except String (List ChatMsg)) : ChatState × Bool :=
  match conversationId with
  | none => (s, false)
  | some cid =>
    let needsReload := s.storedConversationId.isNone
      || (some cid != s.storedConversationId)
      || s.messages.isEmpty
    if needsReload then
      ({ s with
          messages := match selectResult with
            | .ok ms => ms
            | .error _ => []
          storedConversationId := some cid }, true)
    else ({ s with storedConversationId := some cid }, false)

/-- Token block of Chat.onRequest: a supplied token is always stored, and
the user id additionally when the token validates. -/
def tokenStage (s : ChatState) (db : AuthDb) (now : Nat) :
    Option String → ChatState
  | none => s
  | some t =>
    match validateToken db t now with
    | some u => { s with userToken := some t, storedUserId := some u.id }
    | none => { s with userToken := some t }

/-- Model of Chat.onRequest: conversation binding and reload, then token
persistence.  The returned flag records whether a durable reload was
performed. -/
def chatOnRequest (s : ChatState) (db : AuthDb) (now : Nat)
    (conversationId : Option String) (token : Option String)
    (selectResult : Except String (List ChatMsg)) : ChatState × Bool :=
  let r := bindStage s conversationId selectResult
  (tokenStage r.1 db now token, r.2)

lemma tokenStage_frame (s : ChatState) (db : AuthDb) (now : Nat)
    (tok : Option String) :
    (tokenStage s db now tok).messages = s.messages ∧
    (tokenStage s db now tok).storedConversationId
      = s.storedConversationId := by
  cases tok with
  | none => exact ⟨rfl, rfl⟩
  | some t =>
    rcases h : validateToken db t now with _ | u <;> simp [tokenStage, h]

lemma needsReload_iff (s : ChatState) (cid : String) :
    (s.storedConversationId.isNone
      || (some cid != s.storedConversationId)
      || s.messages.isEmpty) = true ↔
    (s.storedConversationId = none ∨ s.storedConversationId ≠ some cid ∨
      s.messages = []) := by
  simp [Option.isNone_iff_eq_none, List.isEmpty_iff, bne_iff_ne]
  tauto

/-- C2: a request carrying a conversation id reloads the in-memory log
from the durable store exactly when the bound id is unset, differs from
the requested one, or the in-memory log is empty; otherwise the log is
kept; and afterwards the requested id is the bound one. -/
theorem chatOnRequest_reload_iff (s : ChatState) (db : AuthDb) (now : Nat)
    (cid : String) (tok : Option String) (ms : List ChatMsg) :
    ((chatOnRequest s db now (some cid) tok (.ok ms)).2 = true ↔
      (s.storedConversationId = none ∨ s.storedConversationId ≠ some cid ∨
        s.messages = [])) ∧
    (chatOnRequest s db now (some cid) tok (.ok ms)).1.messages
      = (if (chatOnRequest s db now (some cid) tok (.ok ms)).2 = true
          then ms else s.messages) ∧
    (chatOnRequest s db now (some cid) tok (.ok ms)).1.storedConversationId
      = some cid := by
  have hframe := tokenStage_frame (bindStage s (some cid) (.ok ms)).1 db now tok
  by_cases hb : (s.storedConversationId.isNone
      || (some cid != s.storedConversationId)
      || s.messages.isEmpty) = true
  · have hbind : bindStage s (some cid) (.ok ms)
        = ({ s with messages := ms, storedConversationId := some cid }, true) := by
      simp [bindStage, hb]
    refine ⟨?_, ?_, ?_⟩
    · simp only [chatOnRequest, hbind]
      exact ⟨fun _ => (needsReload_iff s cid).mp hb, fun _ => by trivial⟩
    · simp only [chatOnRequest, hbind] at hframe ⊢
      simp [hframe.1]
    · simp only [chatOnRequest, hbind] at hframe ⊢
      simp [hframe.2]
  · have hbind : bindStage s (some cid) (.ok ms)
        = ({ s with storedConversationId := some cid }, false) := by
      simp only [bindStage]
      rw [if_neg hb]
    refine ⟨?_, ?_, ?_⟩
    · simp only [chatOnRequest, hbind]
      constructor
      · intro h; exact absurd h (by simp)
      · intro h; exact absurd ((needsReload_iff s cid).mpr h) hb
    · simp only [chatOnRequest, hbind] at hframe ⊢
      simp [hframe.1]
    · simp only [chatOnRequest, hbind] at hframe ⊢
      simp [hframe.2]

def freshChatState : ChatState := ⟨[], none, none, none⟩

def emptyAuthDb : AuthDb := ⟨[], [], []⟩

/-- C6 counterexample: on a cold start whose durable select fails, the
request is not answered with an error; onRequest catches the failure and
continues processing against an empty in-memory log, binding the
requested conversation id as if hydration had succeeded. -/
theorem chatOnRequest_swallows_load_failure :
    chatOnRequest freshChatState emptyAuthDb 0 (some "c1") none
        (.error "db failure")
      = (⟨[], some "c1", none, none⟩, true) := rfl

/-- C6 amended: a failed durable load during hydration is caught and the
triggering request proceeds over an empty in-memory log; the actor is not
poisoned: the empty log makes the next request for the id reload again,
and a succeeding select then restores the durable log. -/
theorem chatOnRequest_load_failure_recovers (s : ChatState) (db : AuthDb)
    (now now2 : Nat) (cid e : String) (ms : List ChatMsg)
    (hreload : (chatOnRequest s db now (some cid) none (.error e)).2 = true) :
    (chatOnRequest s db now (some cid) none (.error e)).1.messages = [] ∧
    (chatOnRequest ((chatOnRequest s db now (some cid) none (.error e)).1)
        db now2 (some cid) none (.ok ms)).2 = true ∧
    (chatOnRequest ((chatOnRequest s db now (some cid) none (.error e)).1)
        db now2 (some cid) none (.ok ms)).1.messages = ms := by
  by_cases hb : (s.storedConversationId.isNone
      || (some cid != s.storedConversationId)
      || s.messages.isEmpty) = true
  · have hbind : bindStage s (some cid) (.error e)
        = ({ s with messages := [], storedConversationId := some cid },
           true) := by
      simp [bindStage, hb]
    have h1 : chatOnRequest s db now (some cid) none (.error e)
        = ({ s with messages := [], storedConversationId := some cid },
           true) := by
      simp only [chatOnRequest, hbind]
      rfl
    refine ⟨by rw [h1], ?_, ?_⟩
    · rw [h1]
      simp [chatOnRequest, bindStage, tokenStage]
    · rw [h1]
      simp [chatOnRequest, bindStage, tokenStage]
  · exfalso
    have hbind : bindStage s (some cid) (.error e)
        = ({ s with storedConversationId := some cid }, false) := by
      simp only [bindStage]
      rw [if_neg hb]
    have h2 : (chatOnRequest s db now (some cid) none (.error e)).2
        = false := by
      simp only [chatOnRequest, hbind]
    exact absurd (h2.symm.trans hreload) Bool.false_ne_true

/-- Witness for C6 on a fresh actor whose first select fails and whose
retry succeeds with one stored message. -/
theorem chatOnRequest_load_failure_recovers_witness :
    (chatOnRequest freshChatState emptyAuthDb 0 (some "c1") none
        (.error "db failure")).1.messages = [] ∧
    (chatOnRequest ((chatOnRequest freshChatState emptyAuthDb 0 (some "c1")
        none (.error "db failure")).1)
        emptyAuthDb 1 (some "c1") none (.ok [⟨"user", "hi"⟩])).2 = true ∧
    (chatOnRequest ((chatOnRequest freshChatState emptyAuthDb 0 (some "c1")
        none (.error "db failure")).1)
        emptyAuthDb 1 (some "c1") none (.ok [⟨"user", "hi"⟩])).1.messages
      = [⟨"user", "hi"⟩] :=
  chatOnRequest_load_failure_recovers freshChatState emptyAuthDb 0 1 "c1"
    "db failure" [⟨"user", "hi"⟩] (by decide)

/- Identity resolution of Chat.onChatMessage. -/

inductive ChatTurnError where
  | noConversationId
  | unauthorizedNoSession
  | unauthorizedExpired
deriving DecidableEq, Repr

structure TurnOk where
  userId : String
  state : ChatState
  db : AuthDb
deriving DecidableEq, Repr

/-- Model of the session query of onChatMessage: the newest unexpired
session row of the user, joined with its user row. -/
def latestValidSession (db : AuthDb) (uid : String) (now : Nat) :
    Option (SessionRow × UserRow) :=
  (db.sessions.filterMap (fun srow =>
    if srow.userId == uid && decide (now < srow.expiresAt) then
      (db.users.find? (fun u => u.id == srow.userId)).map (fun u => (srow, u))
    else none)).foldl
    (fun best c =>
      match best with
      | none => some c
      | some b => if b.1.createdAt < c.1.createdAt then some c else some b)
    none

/-- Source-side resolution chain of onChatMessage: the stored user id,
else validation of the stored token (recording the resolved id), else the
user id of the existing durable conversation record (also recorded). -/
def resolveStoredUser (s : ChatState) (db : AuthDb) (now : Nat)
    (cid : String) : Option String × ChatState :=
  match s.storedUserId with
  | some uid => (some uid, s)
  | none =>
    match s.userToken with
    | some t =>
      match validateToken db t now with
      | some u => (some u.id, { s with storedUserId := some u.id })
      | none =>
        match db.conversations.find? (fun c => c.id == cid) with
        | some conv =>
          (some conv.userId, { s with storedUserId := some conv.userId })
        | none => (none, s)
    | none =>
      match db.conversations.find? (fun c => c.id == cid) with
      | some conv =>
        (some conv.userId, { s with storedUserId := some conv.userId })
      | none => (none, s)

/-- Spec-side formalization of the three identity sources named by the
claim, in their order: a user recorded from a supplied token, a stored
token, and the user id on the existing durable conversation record. -/
def resolvedActingUser (s : ChatState) (db : AuthDb) (now : Nat)
    (cid : String) : Option String :=
  match s.storedUserId with
  | some uid => some uid
  | none =>
    match s.userToken with
    | some t =>
      match validateToken db t now with
      | some u => some u.id
      | none =>
        (db.conversations.find? (fun c => c.id == cid)).map
          (fun c => c.userId)
    | none =>
      (db.conversations.find? (fun c => c.id == cid)).map
        (fun c => c.userId)

/-- Model of Chat.onChatMessage up to the creation of the conversation
header record: resolve the acting user, then require a live session for
that user, storing the freshest session token; each failure is a thrown
error and performs no further writes. -/
def onChatMessage (s : ChatState) (db : AuthDb) (now : Nat) :
    Except ChatTurnError TurnOk :=
  match s.storedConversationId with
  | none => .error ChatTurnError.noConversationId
  | some cid =>
    match resolveStoredUser s db now cid with
    | (none, _) => .error ChatTurnError.unauthorizedNoSession
    | (some uid, s1) =>
      match latestValidSession db uid now with
      | none => .error ChatTurnError.unauthorizedExpired
      | some su =>
        let s2 := if s1.userToken != some su.1.token
          then { s1 with userToken := some su.1.token } else s1
        let db2 :=
          match db.conversations.find? (fun c => c.id == cid) with
          | some _ => db
          | none =>
            { db with conversations :=
                db.conversations ++ [⟨cid, su.2.id, "New conversation"⟩] }
        .ok ⟨su.2.id, s2, db2⟩

lemma resolveStoredUser_fst (s : ChatState) (db : AuthDb) (now : Nat)
    (cid : String) :
    (resolveStoredUser s db now cid).1 = resolvedActingUser s db now cid := by
  rcases hsu : s.storedUserId with _ | uid
  · rcases ht : s.userToken with _ | t
    · rcases hc : db.conversations.find? (fun c => c.id == cid) with _ | conv <;>
        simp [resolveStoredUser, resolvedActingUser, hsu, ht, hc]
    · rcases hv : validateToken db t now with _ | u
      · rcases hc : db.conversations.find? (fun c => c.id == cid) with _ | conv <;>
          simp [resolveStoredUser, resolvedActingUser, hsu, ht, hv, hc]
      · simp [resolveStoredUser, resolvedActingUser, hsu, ht, hv]
  · simp [resolveStoredUser, resolvedActingUser, hsu]

def sExpired : ChatState := ⟨[], some "c1", none, some "u1"⟩

def dbExpired : AuthDb := ⟨[], [⟨"u1", "ann@mail", "Ann"⟩], []⟩

/-- C3 counterexample: a request whose stored user id names a real user
still fails with an unauthorized error when that user has no unexpired
session row, so an unauthorized failure does not imply that all three
identity sources came up empty. -/
theorem onChatMessage_unauthorized_despite_user :
    onChatMessage sExpired dbExpired 0
      = .error ChatTurnError.unauthorizedExpired ∧
    resolvedActingUser sExpired dbExpired 0 "c1" = some "u1" := ⟨rfl, rfl⟩

lemma bindStage_bound (s : ChatState) (cid : String)
    (sel : Except String (List ChatMsg)) :
    (bindStage s (some cid) sel).1.storedConversationId = some cid := by
  simp only [bindStage]
  split <;> rfl

lemma chatOnRequest_token_valid (s : ChatState) (db : AuthDb) (now2 : Nat)
    (cid t : String) (u : UserRow) (sel : Except String (List ChatMsg))
    (hv : validateToken db t now2 = some u) :
    (chatOnRequest s db now2 (some cid) (some t) sel).1
      = { (bindStage s (some cid) sel).1 with
          userToken := some t, storedUserId := some u.id } := by
  simp only [chatOnRequest, tokenStage, hv]

/-- C3 amended: the turn resolves the acting user by the three sources in
order and fails with the no-session unauthorized error exactly when none
yields a user; it additionally fails with the session-expired unauthorized
error when a user is resolved but holds no unexpired session; and either
failure is fatal for that request only, since a retried request carrying a
token that validates for a user with a live session succeeds. -/
theorem onChatMessage_auth_spec (s : ChatState) (db : AuthDb) (now : Nat)
    (cid : String) (hcid : s.storedConversationId = some cid) :
    (onChatMessage s db now = .error ChatTurnError.unauthorizedNoSession ↔
      resolvedActingUser s db now cid = none) ∧
    (onChatMessage s db now = .error ChatTurnError.unauthorizedExpired ↔
      (∃ uid, resolvedActingUser s db now cid = some uid ∧
        latestValidSession db uid now = none)) ∧
    (∀ (t : String) (u : UserRow) (sel : Except String (List ChatMsg))
        (now2 : Nat),
      validateToken db t now2 = some u →
      (latestValidSession db u.id now2).isSome = true →
      ∃ r, onChatMessage
          ((chatOnRequest s db now2 (some cid) (some t) sel).1) db now2
        = Except.ok r) := by
  have hfst := resolveStoredUser_fst s db now cid
  refine ⟨?_, ?_, ?_⟩
  · rcases hrs : resolveStoredUser s db now cid with ⟨uid?, s1⟩
    rw [hrs] at hfst
    cases uid? with
    | none =>
      simp only [onChatMessage, hcid, hrs]
      exact ⟨fun _ => hfst.symm, fun _ => by trivial⟩
    | some uid =>
      rcases hlv : latestValidSession db uid now with _ | su <;>
        simp only [onChatMessage, hcid, hrs, hlv] <;>
        constructor <;> intro h
      · exact absurd h (by simp)
      · rw [← hfst] at h; exact absurd h (by simp)
      · exact absurd h (by simp)
      · rw [← hfst] at h; exact absurd h (by simp)
  · rcases hrs : resolveStoredUser s db now cid with ⟨uid?, s1⟩
    rw [hrs] at hfst
    cases uid? with
    | none =>
      simp only [onChatMessage, hcid, hrs]
      constructor
      · intro h; exact absurd h (by simp)
      · rintro ⟨uid, huid, _⟩
        rw [← hfst] at huid
        exact absurd huid (by simp)
    | some uid =>
      rcases hlv : latestValidSession db uid now with _ | su
      · simp only [onChatMessage, hcid, hrs, hlv]
        exact ⟨fun _ => ⟨uid, hfst.symm, hlv⟩, fun _ => by trivial⟩
      · simp only [onChatMessage, hcid, hrs, hlv]
        constructor
        · intro h; exact absurd h (by simp)
        · rintro ⟨uid2, huid2, hnone⟩
          rw [← hfst] at huid2
          obtain rfl : uid = uid2 := by
            simpa using huid2
          exact absurd (hlv.symm.trans hnone) (by simp)
  · intro t u sel now2 hv hlvs
    have hsP := chatOnRequest_token_valid s db now2 cid t u sel hv
    have hcid2 : (chatOnRequest s db now2 (some cid) (some t) sel).1.storedConversationId
        = some cid := by
      rw [hsP]
      exact bindStage_bound s cid sel
    have hsid : (chatOnRequest s db now2 (some cid) (some t) sel).1.storedUserId
        = some u.id := by
      rw [hsP]
    have hrs2 : resolveStoredUser
        ((chatOnRequest s db now2 (some cid) (some t) sel).1) db now2 cid
        = (some u.id, (chatOnRequest s db now2 (some cid) (some t) sel).1) := by
      simp [resolveStoredUser, hsid]
    obtain ⟨su, hsu⟩ := Option.isSome_iff_exists.mp hlvs
    simp only [onChatMessage, hcid2, hrs2, hsu]
    exact ⟨_, rfl⟩

def uAW : UserRow := ⟨"u1", "ann@mail", "Ann"⟩

def sessAW : SessionRow := ⟨"tok1", "u1", 100, 1⟩

def dbAW : AuthDb := ⟨[sessAW], [uAW], []⟩

def sAW : ChatState := ⟨[], some "c1", none, none⟩

/-- Witness for the amended C3 on a database holding one live session. -/
theorem onChatMessage_auth_spec_witness :
    ((onChatMessage sAW dbAW 5 = .error ChatTurnError.unauthorizedNoSession ↔
        resolvedActingUser sAW dbAW 5 "c1" = none) ∧
      (onChatMessage sAW dbAW 5 = .error ChatTurnError.unauthorizedExpired ↔
        (∃ uid, resolvedActingUser sAW dbAW 5 "c1" = some uid ∧
          latestValidSession dbAW uid 5 = none))) ∧
    (∃ r, onChatMessage
        ((chatOnRequest sAW dbAW 5 (some "c1") (some "tok1") (.ok [])).1)
        dbAW 5 = Except.ok r) :=
  have W := onChatMessage_auth_spec sAW dbAW 5 "c1" rfl
  ⟨⟨W.1, W.2.1⟩, W.2.2 "tok1" uAW (.ok []) 5 rfl rfl⟩

end Spec2Proof
